import Mathlib

/-!
Shallow embedding of the `InstanceResolver` core (server-side instance resolver of the
physiome-coko repository, source file `src/unnamed/part_000`).

Modelling conventions:
* JavaScript primitive values are modelled by `JsVal` (null / string / number / boolean).
  `undefined` is modelled by absence, i.e. by `Option JsVal = none` on property lookup.
* JavaScript objects used as field→value records are modelled as association lists
  `List (String × JsVal)` with first-match lookup (JS objects have unique keys).
* The policy evaluator (`this.acl.applyRules`) is not part of the source tree; the
  resolver treats its result as an opaque `match` record, so operations are
  parametrised by the relevant `AclMatch` values (one per evaluated action).
* Persistence and workflow side effects (`object.save()`, process-instance deletion,
  task completion) are recorded in an explicit `Effect` trace returned alongside the
  operation result; an operation that throws produces an `Except.error` carrying the
  error kind and message.  `NotFoundError`, `AuthorizationError`, `UserInputError`
  and plain `Error` are kept distinct, since the spec distinguishes them.
-/

namespace PCoko

/-- A JavaScript primitive value (column/field values in the resolver are primitives). -/
inductive JsVal where
  | null : JsVal
  | str : String → JsVal
  | num : Int → JsVal
  | bool : Bool → JsVal
deriving DecidableEq, Repr

/-- JS truthiness for `JsVal` (`null`, `""`, `0` and `false` are falsy). -/
def JsVal.truthy : JsVal → Bool
  | .null => false
  | .str s => s ≠ ""
  | .num n => n ≠ 0
  | .bool b => b

/-- The test `typeof(value) === "string" || typeof(value) === "number" || value === null`
used by `completeTask` (source line 681) to decide which state values are forwarded to
the workflow engine as process variables.  Booleans do not pass this test. -/
def isProcessVariableValue : JsVal → Bool
  | .str _ => true
  | .num _ => true
  | .null => true
  | .bool _ => false

/-- First-match lookup of a key in a JS-object association list (`obj[k]`;
`none` models `undefined`). -/
def lookupKey {α : Type} : List (String × α) → String → Option α
  | [], _ => none
  | (k', v) :: rest, k => if k' = k then some v else lookupKey rest k

/-- JS property assignment `obj[k] = v`: replace the binding if present, else append. -/
def setProp : List (String × JsVal) → String → JsVal → List (String × JsVal)
  | [], k, v => [(k, v)]
  | (k', v') :: rest, k, v =>
      if k' = k then (k, v) :: rest else (k', v') :: setProp rest k v

/-- `_.pick(obj, keys)`: the sub-object of `obj` restricted to `keys` (in key order). -/
def jsPick (obj : List (String × JsVal)) (keys : List String) : List (String × JsVal) :=
  keys.filterMap (fun k => (lookupKey obj k).map (fun v => (k, v)))

/-- `String.prototype.toLowerCase` (used on workflow business keys). -/
def jsToLower (s : String) : String := s.map Char.toLower

/-- One element of a model schema (spec §3): a field declaration with its
classification flags.  `input = true` models `e.input !== false`. -/
structure Element where
  field : String
  input : Bool := true
  isOwnerField : Bool := false
  joinField : String := ""
  isStateField : Bool := false
  listingFilterable : Bool := false
  listingFilterMultiple : Bool := false
deriving DecidableEq, Repr

/-- An authenticated identity record (`Identity.find` result). -/
structure Identity where
  id : String
deriving DecidableEq, Repr

/-- A persisted model instance: its stable `id` plus its schema-defined fields.
(`created`/`updated` are ordinary entries of `fields`.) -/
structure Instance where
  id : String
  fields : List (String × JsVal)
deriving DecidableEq, Repr

/-- A policy-evaluator match result (spec §3 "Policy Match"): `allow`, plus the
optional `allowedFields` / `allowedRestrictions` / `allowedTasks` sets
(`none` models an absent property). -/
structure AclMatch where
  allow : Bool
  allowedFields : Option (List String) := none
  allowedRestrictions : Option (List String) := none
  allowedTasks : Option (List String) := none
deriving DecidableEq, Repr

/-- A workflow-engine task (after the resolver strips `_links`/`_embedded`). -/
structure Task where
  id : String
  taskDefinitionKey : String
deriving DecidableEq, Repr

/-- A workflow-engine process instance. -/
structure ProcessInstance where
  id : String
  businessKey : String
deriving DecidableEq, Repr

/-- Modelled from the spec: `filterModelElementsForOwnerFields` (imported from
`./utils`, which is not under `src/`) selects the schema elements marked as
owner fields (spec §3: `isOwnerField`/`joinField` mark a foreign-key-like field
used to compute ownership). -/
def filterModelElementsForOwnerFields (elements : List Element) : List Element :=
  elements.filter (fun e => e.isOwnerField)

/-- Modelled from the spec: `filterModelElementsForStates` (imported from
`./utils`, not under `src/`) selects the schema elements marked as state fields
(spec §3: `isStateField` marks fields mutable outside normal write-ACL). -/
def filterModelElementsForStates (elements : List Element) : List Element :=
  elements.filter (fun e => e.isStateField)

/-- Modelled from the spec: `filterModelElementsForListingFilters` (imported from
`./utils`, not under `src/`) selects the schema elements usable as listing filters
(spec §3: `listingFilterable`/`listingFilterMultiple`). -/
def filterModelElementsForListingFilters (elements : List Element) : List Element :=
  elements.filter (fun e => e.listingFilterable)

/-- `_allowedReadFieldKeysForInstance`: every element with a (truthy) field name,
regardless of the input flag (the read ceiling). -/
def allowedReadFieldKeys (elements : List Element) : List String :=
  (elements.filter (fun e => e.field ≠ "")).map (fun e => e.field)

/-- `_allowedInputKeysForInstanceInput`: every element with a (truthy) field name
whose `input` is not explicitly `false` (the write/input ceiling). -/
def allowedInputFieldKeys (elements : List Element) : List String :=
  (elements.filter (fun e => e.field ≠ "" && e.input)).map (fun e => e.field)

/-- `AdditionalAllowedGetFields` (source line 31): fields always readable. -/
def AdditionalAllowedGetFields : List String :=
  ["id", "created", "updated", "tasks", "restrictedFields"]

/-- `_restrictionsApplyToUser(restrictions, isOwner)` (source lines 816–827). -/
def restrictionsApplyToUser (restrictions : Option (List String)) (isOwner : Bool) : Bool :=
  match restrictions with
  | none => true
  | some rs =>
      if rs.isEmpty then true
      else if rs.contains "all" then true
      else isOwner && rs.contains "owner"

/-- Whether a caller identity contains an owner link on an instance:
some owner field's `joinField` value on the instance equals (`===`) the user id.
This is the test used both by `userToAclTargets` (source lines 789–794) and by
the `list` owner where-clause (source lines 232–238). -/
def isOwnerForUserId (ownerFields : List Element) (userId : String) (obj : Instance) : Bool :=
  ownerFields.any (fun f => lookupKey obj.fields f.joinField == some (JsVal.str userId))

/-- Truthiness of `user && user.id`: an identity is authenticated when present
with a non-empty id. -/
def isAuthenticated : Option Identity → Bool
  | none => false
  | some u => u.id ≠ ""

/-- `InstanceResolver.prototype.userToAclTargets(user, object)` (source lines 773–802):
the policy target set and the ownership flag for a (user, instance-or-null) pair. -/
def userToAclTargets (ownerFields : List Element) (user : Option Identity)
    (object : Option Instance) : List String × Bool :=
  match user with
  | none => (["anonymous"], false)
  | some u =>
      if u.id = "" then (["anonymous"], false)
      else
        match object with
        | none => (["anonymous", "administrator"], false)
        | some obj =>
            let isOwner := isOwnerForUserId ownerFields u.id obj
            (["anonymous", "administrator", "user"] ++ (if isOwner then ["owner"] else []),
             isOwner)

/-- The error taxonomy the resolver raises (spec §7).  `notFound` models
`NotFoundError`, `authorization` models `AuthorizationError`, `userInput` models
`UserInputError`, `generic` models a plain `Error`, and `typeError` models a
JavaScript `TypeError` from accessing a property of `undefined`. -/
inductive OpError where
  | notFound (msg : String)
  | authorization (msg : String)
  | userInput (msg : String)
  | generic (msg : String)
  | typeError
deriving DecidableEq, Repr

/-- Equality of `Except` results is decidable (used to evaluate concrete runs). -/
instance exceptDecEq {eps alpha : Type} [DecidableEq eps] [DecidableEq alpha] :
    DecidableEq (Except eps alpha)
  | .error e, .error e' =>
      if h : e = e' then .isTrue (by rw [h])
      else .isFalse (by intro hh; cases hh; exact h rfl)
  | .error _, .ok _ => .isFalse (by intro hh; cases hh)
  | .ok _, .error _ => .isFalse (by intro hh; cases hh)
  | .ok a, .ok b =>
      if h : a = b then .isTrue (by rw [h])
      else .isFalse (by intro hh; cases hh; exact h rfl)

/-- A persistence or workflow side effect issued by an operation, in order. -/
inductive Effect where
  | save (obj : Instance)
  | processStart (processKey businessKey : String)
  | processDelete (processInstanceId : String)
  | taskComplete (taskId : String) (vars : Option (List (String × JsVal)))
deriving DecidableEq, Repr

/-- The object returned by `_getInstance`: `r = {id: ...}` always carries the
instance id as a key; `values` are the further field assignments made by the
redaction loop; `restrictedFields` is `some` exactly when the source leaves the
`restrictedFields` key on the result. -/
structure GetObj where
  id : String
  values : List (String × JsVal)
  restrictedFields : Option (List String)
deriving DecidableEq, Repr

/-- The key set of a `GetObj`, viewed as the JS object it models. -/
def GetObj.keys (r : GetObj) : List String :=
  "id" :: r.values.map Prod.fst ++
    (match r.restrictedFields with
     | some _ => ["restrictedFields"]
     | none => [])

/-- `InstanceResolver.prototype.getAllowedReadFields(readAcl, includeAdditionalFields)`
(source lines 63–72); membership in the returned list models key membership in
the returned JS object.  `readAcl = none` models a `null` read match (no ACL). -/
def getAllowedReadFields (readCeiling : List String) (readAcl : Option AclMatch)
    (includeAdditionalFields : Bool := true) : List String :=
  let base :=
    match readAcl with
    | some m =>
        match m.allowedFields with
        | some af => readCeiling.filter (fun f => af.contains f)
        | none => readCeiling
    | none => readCeiling
  if includeAdditionalFields then base ++ AdditionalAllowedGetFields else base

/-- The allow branch of `_getInstance` (source lines 87–103): build the result
from the requested fields that are allowed and defined on the instance, then
attach `restrictedFields` when non-empty. -/
def getInstanceAllowed (obj : Instance) (allowed : List String)
    (topLevelFields : List String) : GetObj :=
  let filteredRequestedAllowed := topLevelFields.filter (fun f => allowed.contains f)
  let values := filteredRequestedAllowed.filterMap
    (fun f => (lookupKey obj.fields f).map (fun v => (f, v)))
  let rf := topLevelFields.filter (fun f => !(allowed.contains f))
  { id := obj.id, values := values,
    restrictedFields := if rf.isEmpty then none else some rf }

/-- `InstanceResolver.prototype._getInstance(instance, aclTargets, topLevelFields)`
(source lines 76–104).  `readAcl = none` models the no-ACL resolver (the read
match stays `null`); `readAcl = some m` models `acl.applyRules(targets, Read, instance)`
returning `m`. -/
def getInstanceResult (readCeiling : List String) (obj : Instance)
    (readAcl : Option AclMatch) (topLevelFields : List String) : GetObj :=
  match readAcl with
  | some m =>
      if !m.allow then
        { id := obj.id, values := [],
          restrictedFields := some (topLevelFields.filter (fun f => f ≠ "id")) }
      else getInstanceAllowed obj (getAllowedReadFields readCeiling (some m) true)
        topLevelFields
  | none => getInstanceAllowed obj (getAllowedReadFields readCeiling none true)
      topLevelFields

/-- `InstanceResolver.prototype.get(input, info, context)` (source lines 107–146),
parametrised by the loaded instance (`none` when `modelClass.find` returns nothing),
the resolved user, and the two policy matches the source requests (`access`, `read`).
The source *returns* `new NotFoundError(...)` rather than throwing it; both
failure modes are modelled as `Except.error`. -/
def getOp (hasAcl : Bool) (accessMatch readMatch : AclMatch)
    (readCeiling : List String) (ownerFields : List Element)
    (object : Option Instance) (user : Option Identity)
    (topLevelFields : List String) : Except OpError GetObj :=
  match object with
  | none => .error (.notFound "Instance not found.")
  | some obj =>
      let tgt := userToAclTargets ownerFields user (some obj)
      if hasAcl then
        if !accessMatch.allow then
          .error (.authorization "You do not have access to this object.")
        else if !(restrictionsApplyToUser accessMatch.allowedRestrictions tgt.2) then
          .error (.authorization "You do not have access to this object.")
        else .ok (getInstanceResult readCeiling obj (some readMatch) topLevelFields)
      else .ok (getInstanceResult readCeiling obj none topLevelFields)

/-- A value in the listing filter map: either a primitive or an array of
primitives (`v instanceof Array`). -/
inductive FilterVal where
  | scalar (v : JsVal)
  | arr (vs : List JsVal)
deriving DecidableEq, Repr

/-- JS truthiness of a filter value (arrays are always truthy objects). -/
def FilterVal.truthy : FilterVal → Bool
  | .scalar v => v.truthy
  | .arr _ => true

/-- The where-clause contributed for one listing-filter element (source lines
191–213): skipped when the filter value is absent or falsy; `whereIn` for a
multi-valued element given an array (no clause for a non-array); `where` equality
otherwise.  An SQL equality/IN test against a missing column value is false. -/
def listingClauseHolds (f : Element) (filter : List (String × FilterVal))
    (row : Instance) : Bool :=
  match lookupKey filter f.field with
  | none => true
  | some fv =>
      if !fv.truthy then true
      else if f.listingFilterMultiple then
        match fv with
        | .arr vs =>
            match lookupKey row.fields f.field with
            | some rv => vs.contains rv
            | none => false
        | .scalar _ => true
      else
        match fv, lookupKey row.fields f.field with
        | .scalar v, some rv => rv == v
        | _, _ => false

/-- The conjunction of all listing-filter clauses (source lines 184–215); the
clauses are added inside one `where` group, so they conjoin.  With no filter map
or no filterable fields, no clause applies. -/
def rowMatchesListingFilter (filterFields : List Element)
    (filterOpt : Option (List (String × FilterVal))) (row : Instance) : Bool :=
  match filterOpt with
  | none => true
  | some filter =>
      if filterFields.isEmpty then true
      else filterFields.all (fun f => listingClauseHolds f filter row)

/-- The row-selection semantics of `InstanceResolver.prototype.list` (source lines
149–284, up to query execution; sorting only permutes the result and is omitted,
and `where`/`andWhere` both conjoin so the `addedWhereStatement` flag does not
change which rows are selected).  Returns the rows the executed query yields,
before the per-row `_getInstance` redaction of lines 287–290.
When the access match carries no `allowedRestrictions` set, line 220
(`allowedRestrictions.indexOf("all")`) would throw a `TypeError`. -/
def listSelectedRows (hasAcl : Bool) (accessMatch : AclMatch)
    (filterFields ownerFields : List Element) (user : Option Identity)
    (filterOpt : Option (List (String × FilterVal))) (rows : List Instance) :
    Except OpError (List Instance) :=
  let restrictionsE : Except OpError (Option (List String)) :=
    if hasAcl then
      if !accessMatch.allow then
        .error (.authorization "You do not have access to this object.")
      else .ok accessMatch.allowedRestrictions
    else .ok (some ["all"])
  match restrictionsE with
  | .error e => .error e
  | .ok none => .error .typeError
  | .ok (some allowedRestrictions) =>
      let filtered := rows.filter (rowMatchesListingFilter filterFields filterOpt)
      if allowedRestrictions.contains "all" then .ok filtered
      else
        match user with
        | none => .error (.authorization "You must be a valid user ")
        | some u =>
            if ownerFields.isEmpty then .ok filtered
            else .ok (filtered.filter (fun row => isOwnerForUserId ownerFields u.id row))

/-- The write-allowed field set of `update` (source line 354): the input ceiling
narrowed by the write match's `allowedFields` when both exist. -/
def allowedWriteFields (inputCeiling : List String) (aclWriteMatch : Option AclMatch) :
    List String :=
  match aclWriteMatch with
  | some m =>
      match m.allowedFields with
      | some af => inputCeiling.filter (fun f => af.contains f)
      | none => inputCeiling
  | none => inputCeiling

/-- The disallowed keys of an update input (the `restrictedFields` accumulated by
the partition loop of source lines 357–363): the input keys — after `delete input.id`
(line 349) — that are outside the write-allowed field set. -/
def updateRestrictedKeys (hasAcl : Bool) (writeMatch : AclMatch)
    (inputCeiling : List String) (input : List (String × JsVal)) : List String :=
  let inputNoId := input.filter (fun kv => kv.1 ≠ "id")
  let allowed := allowedWriteFields inputCeiling (if hasAcl then some writeMatch else none)
  (inputNoId.filter (fun kv => !(allowed.contains kv.1))).map Prod.fst

/-- The in-memory object after the partition loop's assignments
(`object[key] = input[key]` for each allowed key, source line 359). -/
def updateNewObject (hasAcl : Bool) (writeMatch : AclMatch)
    (inputCeiling : List String) (object : Instance)
    (input : List (String × JsVal)) : Instance :=
  let inputNoId := input.filter (fun kv => kv.1 ≠ "id")
  let allowed := allowedWriteFields inputCeiling (if hasAcl then some writeMatch else none)
  inputNoId.foldl
    (fun (o : Instance) kv =>
      if allowed.contains kv.1 then { o with fields := setProp o.fields kv.1 kv.2 }
      else o)
    object

/-- `InstanceResolver.prototype.update(input, info, context)` (source lines 312–371).
The source does not check the loaded instance for `null` (a missing id would crash
later), so the instance is taken as given.  The in-memory assignments of the
partition loop (line 359) are folded into `updateNewObject`; the only persistence
write is the `object.save()` of line 369, recorded as an `Effect.save`. -/
def updateOp (modelInput : Bool) (hasAcl : Bool) (accessMatch writeMatch : AclMatch)
    (ownerFields : List Element) (inputCeiling : List String)
    (object : Instance) (user : Option Identity)
    (input : List (String × JsVal)) : List Effect × Except OpError Bool :=
  if !modelInput then
    ([], .error (.generic "Model is not defined as an allowing updates."))
  else
    let tgt := userToAclTargets ownerFields user (some object)
    let gate : Option String :=
      if hasAcl then
        if !accessMatch.allow then some "You do not have access to this object."
        else if !(restrictionsApplyToUser accessMatch.allowedRestrictions tgt.2) then
          some "You do not have access to this object."
        else if !writeMatch.allow then some "You do not have write access to this object."
        else none
      else none
    match gate with
    | some msg => ([], .error (.authorization msg))
    | none =>
        let restrictedFields := updateRestrictedKeys hasAcl writeMatch inputCeiling input
        if !restrictedFields.isEmpty then
          ([], .error (.authorization
            ("You do not have write access on the following fields: "
              ++ String.intercalate ", " restrictedFields)))
        else ([Effect.save (updateNewObject hasAcl writeMatch inputCeiling object input)], .ok true)

/-- The state-change loop shared by `destroy` (source lines 491–507) and
`completeTask` (source lines 667–690): apply each filtered state entry whose
value differs (`!==`) from the current one, tracking whether anything changed. -/
def applyStateChanges (object : Instance) (filteredState : List (String × JsVal)) :
    Instance × Bool :=
  filteredState.foldl
    (fun (acc : Instance × Bool) kv =>
      if lookupKey acc.1.fields kv.1 = some kv.2 then acc
      else ({ acc.1 with fields := setProp acc.1.fields kv.1 kv.2 }, true))
    (object, false)

/-- The caller-supplied state narrowed to the schema's state-field keys
(`destroy` lines 485–487 and `completeTask` lines 662–663):
`(state && allowedKeys && allowedKeys.length) ? _.pick(state, allowedKeys) : null`. -/
def filteredStateFor (stateFields : List Element)
    (state : Option (List (String × JsVal))) : Option (List (String × JsVal)) :=
  match state with
  | some st =>
      let allowedKeys := stateFields.map (fun e => e.field)
      if allowedKeys.isEmpty then none else some (jsPick st allowedKeys)
  | none => none

/-- The head process instance matches when it has truthy `id` and `businessKey`
and the business key equals the input id case-insensitively (source line 523). -/
def processInstanceMatches (p : ProcessInstance) (inputId : String) : Bool :=
  p.id ≠ "" && p.businessKey ≠ "" && jsToLower p.businessKey = jsToLower inputId

/-- `InstanceResolver.prototype.destroy(input, context)` (source lines 444–548),
parametrised by the loaded instance, the resolved user, the `access`/`destroy`
policy matches, and the process-instance listing the workflow engine returns for
the business key.  A successful engine deletion resolves `true`; only the head of
the listing is ever examined (source line 521), and a missing or non-matching
process instance yields `false` with no error. -/
def destroyOp (hasAcl : Bool) (accessMatch destroyMatch : AclMatch)
    (ownerFields stateFields : List Element)
    (object : Option Instance) (user : Option Identity)
    (inputId : String) (inputState : Option (List (String × JsVal)))
    (processList : List ProcessInstance) : List Effect × Except OpError Bool :=
  match object with
  | none => ([], .error (.generic "Instance with identifier not found."))
  | some obj =>
      let tgt := userToAclTargets ownerFields user (some obj)
      let gate : Option String :=
        if hasAcl then
          if !accessMatch.allow then some "You do not have access to this object."
          else if !(restrictionsApplyToUser accessMatch.allowedRestrictions tgt.2) then
            some "You do not have access to this object."
          else if !destroyMatch.allow then
            some "You do not have the rights allowed to destroy this object."
          else none
        else none
      match gate with
      | some msg => ([], .error (.authorization msg))
      | none =>
          let saveEffects :=
            match filteredStateFor stateFields inputState with
            | some fs =>
                if fs.isEmpty then []
                else
                  let r := applyStateChanges obj fs
                  if r.2 then [Effect.save r.1] else []
            | none => []
          match processList with
          | [] => (saveEffects, .ok false)
          | p :: _ =>
              if processInstanceMatches p inputId then
                (saveEffects ++ [Effect.processDelete p.id], .ok true)
              else (saveEffects, .ok false)

/-- The instance state after destroy's state-change phase (used to model a second
`destroy` call on the same persisted instance). -/
def destroyResultingInstance (stateFields : List Element) (obj : Instance)
    (inputState : Option (List (String × JsVal))) : Instance :=
  match filteredStateFor stateFields inputState with
  | some fs => (applyStateChanges obj fs).1
  | none => obj

/-- `InstanceResolver.prototype.getTasks(instanceID, context)` (source lines 551–604),
parametrised by the loaded instance, the user, the `task` policy match, and the
task listing returned by the workflow engine for the business key. -/
def getTasksOp (hasAcl : Bool) (tasksMatch : AclMatch) (_ownerFields : List Element)
    (object : Option Instance) (_user : Option Identity)
    (tasks : List Task) : Except OpError (List Task) :=
  match object with
  | none => .error (.notFound "Instance with identifier not found.")
  | some _obj =>
      if hasAcl then
        if !tasksMatch.allow then
          .error (.authorization "You do not have the rights allowed to destroy this object.")
        else
          match tasksMatch.allowedTasks with
          | some allowedTasks =>
              .ok (tasks.filter (fun t => allowedTasks.contains t.taskDefinitionKey))
          | none => .ok tasks
      else .ok tasks

/-- The task list narrowed by the task match's `allowedTasks` (source line 657):
the engine tasks with the requested task id, further filtered by
`allowedTasks` when the match carries such a set. -/
def completeTaskFilteredTasks (hasAcl : Bool) (tasksMatch : AclMatch) (taskId : String)
    (engineTasks : List Task) : List Task :=
  let tasks := engineTasks.filter (fun t => t.id = taskId)
  match (if hasAcl then tasksMatch.allowedTasks else none) with
  | some allowedTasks => tasks.filter (fun t => allowedTasks.contains t.taskDefinitionKey)
  | none => tasks

/-- `InstanceResolver.prototype.completeTask({id, taskId, state}, context)`
(source lines 608–701), parametrised by the loaded instance, the user, the
`access`/`task` policy matches, the raw task listing the workflow engine returns
for the business key, and the caller-supplied state.  The task-completion call
carries `variables` only when a non-empty filtered state exists (lines 667–690),
and only string-, number- or null-valued entries are placed in it. -/
def completeTaskOp (hasAcl : Bool) (accessMatch tasksMatch : AclMatch)
    (ownerFields stateFields : List Element) (inputId taskId : String)
    (object : Option Instance) (user : Option Identity)
    (engineTasks : List Task) (state : Option (List (String × JsVal))) :
    List Effect × Except OpError Bool :=
  if inputId = "" || taskId = "" then
    ([], .error (.userInput "Complete Task requires an id and taskId to be supplied"))
  else
    let tasks : List Task := engineTasks.filter (fun t => t.id = taskId)
    match object with
    | none => ([], .error (.generic "Instance with identifier not found."))
    | some obj =>
        if tasks.isEmpty then ([], .error (.generic "Specific task not found for instance."))
        else
          let tgt := userToAclTargets ownerFields user (some obj)
          let gate : Option String :=
            if hasAcl then
              if !accessMatch.allow then some "You do not have access to this object."
              else if !(restrictionsApplyToUser accessMatch.allowedRestrictions tgt.2) then
                some "You do not have access to this object."
              else if !tasksMatch.allow then
                some "You do not have the rights allowed to destroy this object."
              else none
            else none
          match gate with
          | some msg => ([], .error (.authorization msg))
          | none =>
              let filteredTasks : List Task :=
                completeTaskFilteredTasks hasAcl tasksMatch taskId engineTasks
              if filteredTasks.isEmpty then
                ([], .error (.authorization
                  "You do not have access to the task associated with the instance."))
              else
                match filteredStateFor stateFields state with
                | some fs =>
                    if fs.isEmpty then ([Effect.taskComplete taskId none], .ok true)
                    else
                      let r := applyStateChanges obj fs
                      let newVars : List (String × JsVal) := fs.filter (fun kv => isProcessVariableValue kv.2)
                      ((if r.2 then [Effect.save r.1] else [])
                         ++ [Effect.taskComplete taskId (some newVars)], .ok true)
                | none => ([Effect.taskComplete taskId none], .ok true)

/-! ### Sample data used by witnesses and counterexamples -/

/-- A schema element marking `ownerId` as the owner join field. -/
def ownerElem : Element := { field := "owner", isOwnerField := true, joinField := "ownerId" }

/-- A sample caller identity. -/
def user1 : Identity := { id := "u1" }

/-- An instance owned by `user1`. -/
def inst1 : Instance := { id := "i1", fields := [("ownerId", JsVal.str "u1"), ("title", JsVal.str "t1")] }

/-- An instance owned by somebody else. -/
def inst2 : Instance := { id := "i2", fields := [("ownerId", JsVal.str "u2"), ("title", JsVal.str "t2")] }

/-! ### Claims -/

/-- C1: for every policy match whose `allowedRestrictions` set is non-empty, the
allow decision is honored only if the set contains `"all"`, or contains `"owner"`
and the caller is the owner of the instance (`_restrictionsApplyToUser`, source
lines 816–827); and in every other case — in particular for every non-owner
caller when the set lacks `"all"` — the `get` operation treats the caller as
denied even when the access match has `allow = true` (source lines 132–143). -/
theorem claim_c1_restriction_rule
    (rs : List String) (hne : rs ≠ []) (isOwner : Bool)
    (accessMatch readMatch : AclMatch) (readCeiling : List String)
    (ownerFields : List Element) (obj : Instance) (user : Option Identity)
    (topLevelFields : List String)
    (hrs : accessMatch.allowedRestrictions = some rs)
    (hOwn : (userToAclTargets ownerFields user (some obj)).2 = isOwner) :
    restrictionsApplyToUser (some rs) isOwner
        = (rs.contains "all" || (rs.contains "owner" && isOwner))
    ∧ (rs.contains "all" = false → isOwner = false →
        getOp true accessMatch readMatch readCeiling ownerFields (some obj) user topLevelFields
          = .error (.authorization "You do not have access to this object.")) := by
  have hne' : rs.isEmpty = false := by
    cases rs with
    | nil => exact absurd rfl hne
    | cons a l => rfl
  constructor
  · simp only [restrictionsApplyToUser, hne', Bool.false_eq_true, if_false]
    cases hall : rs.contains "all" <;> simp [hall, Bool.and_comm]
  · intro hall hOwnF
    have hmem : "all" ∉ rs := by simpa using hall
    have hdeny : restrictionsApplyToUser accessMatch.allowedRestrictions
        (userToAclTargets ownerFields user (some obj)).2 = false := by
      rw [hrs, hOwn, hOwnF]
      simp [restrictionsApplyToUser, hne', hmem]
    cases haccess : accessMatch.allow with
    | false => simp [getOp, haccess]
    | true => simp [getOp, haccess, hdeny]

/-- Witness for C1 at a concrete input: restrictions `["owner"]`, a non-owner
caller on `inst2`. -/
theorem claim_c1_restriction_rule_witness :
    restrictionsApplyToUser (some ["owner"]) false
        = ((["owner"] : List String).contains "all"
            || ((["owner"] : List String).contains "owner" && false))
    ∧ ((["owner"] : List String).contains "all" = false → false = false →
        getOp true { allow := true, allowedRestrictions := some ["owner"] }
          { allow := true } ["title"] [ownerElem] (some inst2) (some user1) ["title"]
          = .error (.authorization "You do not have access to this object.")) :=
  claim_c1_restriction_rule ["owner"] (by decide) false
    { allow := true, allowedRestrictions := some ["owner"] }
    { allow := true } ["title"] [ownerElem] inst2 (some user1) ["title"] rfl (by decide)

/-- C4 counterexample: an authenticated identity evaluated with no instance
(exactly what `list` does at source line 166) receives targets
`["anonymous", "administrator"]` — the `user` target is *not* present although
the caller is authenticated, refuting "contains 'user' whenever the caller is
authenticated". -/
theorem claim_c4_targets_counterexample :
    isAuthenticated (some user1) = true
    ∧ userToAclTargets [ownerElem] (some user1) none = (["anonymous", "administrator"], false)
    ∧ "user" ∉ (userToAclTargets [ownerElem] (some user1) none).1 := by decide

/-- C4 (amended): the computed target set always contains `anonymous`; contains
`administrator` exactly when an authenticated identity is present; contains
`user` exactly when the caller is authenticated *and* an instance is supplied
(with a null instance an authenticated caller gets only anonymous/administrator);
and contains `owner` exactly when the authenticated identity's id equals the
value of some owner field's join field on the supplied instance. -/
theorem claim_c4_targets_amended (ownerFields : List Element) (user : Option Identity)
    (object : Option Instance) :
    "anonymous" ∈ (userToAclTargets ownerFields user object).1
    ∧ ("administrator" ∈ (userToAclTargets ownerFields user object).1
        ↔ isAuthenticated user = true)
    ∧ ("user" ∈ (userToAclTargets ownerFields user object).1
        ↔ (isAuthenticated user = true ∧ object.isSome = true))
    ∧ ("owner" ∈ (userToAclTargets ownerFields user object).1
        ↔ (userToAclTargets ownerFields user object).2 = true)
    ∧ ((userToAclTargets ownerFields user object).2 = true
        ↔ ∃ u obj, user = some u ∧ u.id ≠ "" ∧ object = some obj
            ∧ isOwnerForUserId ownerFields u.id obj = true) := by
  cases user with
  | none => simp [userToAclTargets, isAuthenticated]
  | some u =>
      by_cases hid : u.id = ""
      · simp [userToAclTargets, isAuthenticated, hid]
      · cases object with
        | none => simp [userToAclTargets, isAuthenticated, hid]
        | some obj =>
            cases hown : isOwnerForUserId ownerFields u.id obj <;>
              simp [userToAclTargets, isAuthenticated, hid, hown]

/-- C2: an update whose input contains a key outside the write-allowed field set
(the input ceiling narrowed by the write match's `allowedFields`) fails with an
`AuthorizationError` naming the disallowed keys, and issues no persistence write
at all — the allowed keys are never applied alone (source lines 354–370). -/
theorem claim_c2_update_all_or_nothing
    (modelInput hasAcl : Bool) (accessMatch writeMatch : AclMatch)
    (ownerFields : List Element) (inputCeiling : List String)
    (object : Instance) (user : Option Identity) (input : List (String × JsVal))
    (k : String) (hk : k ≠ "id") (hkmem : k ∈ input.map Prod.fst)
    (hkdis : (allowedWriteFields inputCeiling
        (if hasAcl then some writeMatch else none)).contains k = false)
    (hmodel : modelInput = true)
    (hgate : hasAcl = true →
      accessMatch.allow = true
      ∧ restrictionsApplyToUser accessMatch.allowedRestrictions
          (userToAclTargets ownerFields user (some object)).2 = true
      ∧ writeMatch.allow = true) :
    updateOp modelInput hasAcl accessMatch writeMatch ownerFields inputCeiling object user input
      = ([], .error (.authorization
          ("You do not have write access on the following fields: "
            ++ String.intercalate ", "
                (updateRestrictedKeys hasAcl writeMatch inputCeiling input))))
    ∧ k ∈ updateRestrictedKeys hasAcl writeMatch inputCeiling input := by
  obtain ⟨⟨k', v⟩, hmem, hfst⟩ := List.mem_map.1 hkmem
  subst hfst
  have hres : k' ∈ updateRestrictedKeys hasAcl writeMatch inputCeiling input := by
    refine List.mem_map.2 ⟨(k', v), ?_, rfl⟩
    refine List.mem_filter.2 ⟨List.mem_filter.2 ⟨hmem, ?_⟩, ?_⟩
    · simpa using hk
    · simpa using hkdis
  have hne : (updateRestrictedKeys hasAcl writeMatch inputCeiling input).isEmpty = false := by
    cases hr : updateRestrictedKeys hasAcl writeMatch inputCeiling input with
    | nil => rw [hr] at hres; cases hres
    | cons a l => rfl
  refine ⟨?_, hres⟩
  cases hasAcl with
  | false => simp [updateOp, hmodel, hne]
  | true =>
      obtain ⟨h1, h2, h3⟩ := hgate rfl
      simp [updateOp, hmodel, h1, h2, h3, hne]

/-- Witness for C2: a concrete update carrying allowed key `title` and disallowed
key `secret` fails naming `secret` and issues no save. -/
theorem claim_c2_update_all_or_nothing_witness :
    updateOp true false { allow := true } { allow := true } [ownerElem] ["title"] inst1
        (some user1) [("title", JsVal.str "x"), ("secret", JsVal.str "y")]
      = ([], .error (.authorization
          ("You do not have write access on the following fields: "
            ++ String.intercalate ", "
                (updateRestrictedKeys false { allow := true } ["title"]
                  [("title", JsVal.str "x"), ("secret", JsVal.str "y")]))))
    ∧ "secret" ∈ updateRestrictedKeys false { allow := true } ["title"]
        [("title", JsVal.str "x"), ("secret", JsVal.str "y")] :=
  claim_c2_update_all_or_nothing true false { allow := true } { allow := true } [ownerElem]
    ["title"] inst1 (some user1) [("title", JsVal.str "x"), ("secret", JsVal.str "y")]
    "secret" (by decide) (by decide) (by decide) rfl (fun h => by cases h)

/-- C3 counterexample: a no-op update — the single allowed input field `title`
already equals the instance's current value — still issues a persistence write:
the effect trace of `update` is `[save inst1]`, not `[]` (the source's `update`
has no `didModify` guard; `object.save()` at line 369 runs unconditionally once
the field check passes). -/
theorem claim_c3_update_noop_counterexample :
    updateOp true false { allow := true } { allow := true } [] ["title"] inst1 none
        [("title", JsVal.str "t1")]
      = ([Effect.save inst1], .ok true)
    ∧ (updateOp true false { allow := true } { allow := true } [] ["title"] inst1 none
        [("title", JsVal.str "t1")]).1 ≠ [] := by decide

/-- C3 (amended): whenever the field check passes (no disallowed input keys),
`update` always issues exactly one persistence write — of the object with all
allowed entries applied — even when every allowed input field equals the
instance's current value; no-op saves are *not* skipped by `update` (the
`didModify` skip exists only in `destroy` and `completeTask`). -/
theorem claim_c3_update_always_saves
    (modelInput hasAcl : Bool) (accessMatch writeMatch : AclMatch)
    (ownerFields : List Element) (inputCeiling : List String)
    (object : Instance) (user : Option Identity) (input : List (String × JsVal))
    (hmodel : modelInput = true)
    (hgate : hasAcl = true →
      accessMatch.allow = true
      ∧ restrictionsApplyToUser accessMatch.allowedRestrictions
          (userToAclTargets ownerFields user (some object)).2 = true
      ∧ writeMatch.allow = true)
    (hallowed : updateRestrictedKeys hasAcl writeMatch inputCeiling input = []) :
    updateOp modelInput hasAcl accessMatch writeMatch ownerFields inputCeiling object user input
      = ([Effect.save (updateNewObject hasAcl writeMatch inputCeiling object input)], .ok true) := by
  cases hasAcl with
  | false => simp [updateOp, hmodel, hallowed]
  | true =>
      obtain ⟨h1, h2, h3⟩ := hgate rfl
      simp [updateOp, hmodel, h1, h2, h3, hallowed]

/-- Witness for C3 (amended) at a concrete no-op input: the save is issued with
the unchanged object. -/
theorem claim_c3_update_always_saves_witness :
    updateOp true true { allow := true } { allow := true } [ownerElem] ["title"] inst1
        (some user1) [("title", JsVal.str "t1")]
      = ([Effect.save (updateNewObject true { allow := true } ["title"] inst1
            [("title", JsVal.str "t1")])], .ok true) :=
  claim_c3_update_always_saves true true { allow := true } { allow := true } [ownerElem]
    ["title"] inst1 (some user1) [("title", JsVal.str "t1")] rfl
    (fun _ => ⟨rfl, by decide, rfl⟩) (by decide)

/-- A destroy call whose process-instance listing has no entry matching the input
id (in particular an empty listing) returns `ok false` once the gates pass:
only the head of the listing is examined, and a non-matching head falls through
to `return false` (source lines 517–541). -/
theorem destroy_noMatch_ok_false
    (hasAcl : Bool) (accessMatch destroyMatch : AclMatch)
    (ownerFields stateFields : List Element) (obj : Instance) (user : Option Identity)
    (inputId : String) (inputState : Option (List (String × JsVal)))
    (processList : List ProcessInstance)
    (hnomatch : ∀ p ∈ processList, processInstanceMatches p inputId = false)
    (hgate : hasAcl = true →
      accessMatch.allow = true
      ∧ restrictionsApplyToUser accessMatch.allowedRestrictions
          (userToAclTargets ownerFields user (some obj)).2 = true
      ∧ destroyMatch.allow = true) :
    (destroyOp hasAcl accessMatch destroyMatch ownerFields stateFields (some obj) user
        inputId inputState processList).2 = .ok false := by
  cases processList with
  | nil =>
      cases hasAcl with
      | false => simp [destroyOp]
      | true =>
          obtain ⟨h1, h2, h3⟩ := hgate rfl
          simp [destroyOp, h1, h2, h3]
  | cons p rest =>
      have hp : processInstanceMatches p inputId = false := hnomatch p (by simp)
      cases hasAcl with
      | false => simp [destroyOp, hp]
      | true =>
          obtain ⟨h1, h2, h3⟩ := hgate rfl
          simp [destroyOp, h1, h2, h3, hp]

/-- C6: a destroy call on an instance with no matching workflow process instance
for its business key returns `false` and raises no error; and calling destroy a
second time (on the instance as the first call left it) again returns `false`
with no error. -/
theorem claim_c6_destroy_idempotent
    (hasAcl : Bool) (accessMatch destroyMatch : AclMatch)
    (ownerFields stateFields : List Element) (obj : Instance) (user : Option Identity)
    (inputId : String) (inputState : Option (List (String × JsVal)))
    (processList : List ProcessInstance)
    (hnomatch : ∀ p ∈ processList, processInstanceMatches p inputId = false)
    (hgate1 : hasAcl = true →
      accessMatch.allow = true
      ∧ restrictionsApplyToUser accessMatch.allowedRestrictions
          (userToAclTargets ownerFields user (some obj)).2 = true
      ∧ destroyMatch.allow = true)
    (hgate2 : hasAcl = true →
      accessMatch.allow = true
      ∧ restrictionsApplyToUser accessMatch.allowedRestrictions
          (userToAclTargets ownerFields user
            (some (destroyResultingInstance stateFields obj inputState))).2 = true
      ∧ destroyMatch.allow = true) :
    (destroyOp hasAcl accessMatch destroyMatch ownerFields stateFields (some obj) user
        inputId inputState processList).2 = .ok false
    ∧ (destroyOp hasAcl accessMatch destroyMatch ownerFields stateFields
        (some (destroyResultingInstance stateFields obj inputState)) user
        inputId inputState processList).2 = .ok false :=
  ⟨destroy_noMatch_ok_false hasAcl accessMatch destroyMatch ownerFields stateFields obj user
      inputId inputState processList hnomatch hgate1,
   destroy_noMatch_ok_false hasAcl accessMatch destroyMatch ownerFields stateFields
      (destroyResultingInstance stateFields obj inputState) user
      inputId inputState processList hnomatch hgate2⟩

/-- Witness for C6 at a concrete input: ACL active, the caller owns `inst1`, the
workflow engine reports no process instance; both calls yield `ok false`. -/
theorem claim_c6_destroy_idempotent_witness :
    (destroyOp true { allow := true, allowedRestrictions := some ["owner"] }
        { allow := true } [ownerElem] [] (some inst1) (some user1) "i1" none []).2 = .ok false
    ∧ (destroyOp true { allow := true, allowedRestrictions := some ["owner"] }
        { allow := true } [ownerElem] []
        (some (destroyResultingInstance [] inst1 none)) (some user1) "i1" none []).2
      = .ok false :=
  claim_c6_destroy_idempotent true { allow := true, allowedRestrictions := some ["owner"] }
    { allow := true } [ownerElem] [] inst1 (some user1) "i1" none []
    (fun p hp => absurd hp (List.not_mem_nil p))
    (fun _ => ⟨rfl, by decide, rfl⟩) (fun _ => ⟨rfl, by decide, rfl⟩)

/-- Whether an operation outcome is a `NotFoundError`. -/
def raisedNotFound {α : Type} : Except OpError α → Bool
  | .error (.notFound _) => true
  | _ => false

/-- C9 counterexample: `destroy` on a missing instance raises a *plain* `Error`
("Instance with identifier not found.", source line 455), not a `NotFoundError`
as the claim requires for all four id-referencing operations. -/
theorem claim_c9_notfound_counterexample :
    destroyOp true { allow := true } { allow := true } [ownerElem] [] none (some user1)
        "i1" none []
      = ([], .error (.generic "Instance with identifier not found."))
    ∧ raisedNotFound (destroyOp true { allow := true } { allow := true } [ownerElem] []
        none (some user1) "i1" none []).2 = false := by decide

/-- C9 (amended): when the referenced instance does not exist, each of the four
id-referencing operations fails immediately with an empty effect trace and a
result that does not depend on any policy match — `get` and `getTasks` with a
`NotFoundError`, while `destroy` and `completeTask` raise a plain `Error`
(message "Instance with identifier not found.") rather than a typed
`NotFoundError`. -/
theorem claim_c9_missing_instance_amended
    (hasAcl : Bool) (accessMatch readMatch destroyMatch tasksMatch : AclMatch)
    (readCeiling : List String) (ownerFields stateFields : List Element)
    (user : Option Identity) (topLevelFields : List String)
    (inputId taskId : String) (inputState : Option (List (String × JsVal)))
    (processList : List ProcessInstance) (engineTasks : List Task)
    (hid : inputId ≠ "") (htid : taskId ≠ "") :
    getOp hasAcl accessMatch readMatch readCeiling ownerFields none user topLevelFields
        = .error (.notFound "Instance not found.")
    ∧ getTasksOp hasAcl tasksMatch ownerFields none user engineTasks
        = .error (.notFound "Instance with identifier not found.")
    ∧ destroyOp hasAcl accessMatch destroyMatch ownerFields stateFields none user inputId
        inputState processList
        = ([], .error (.generic "Instance with identifier not found."))
    ∧ completeTaskOp hasAcl accessMatch tasksMatch ownerFields stateFields inputId taskId
        none user engineTasks inputState
        = ([], .error (.generic "Instance with identifier not found.")) := by
  refine ⟨rfl, rfl, rfl, ?_⟩
  simp [completeTaskOp, hid, htid]

/-- Witness for C9 (amended) at a concrete input. -/
theorem claim_c9_missing_instance_amended_witness :
    getOp true { allow := true } { allow := true } ["title"] [ownerElem] none (some user1)
        ["title"]
        = .error (.notFound "Instance not found.")
    ∧ getTasksOp true { allow := true } [ownerElem] none (some user1) []
        = .error (.notFound "Instance with identifier not found.")
    ∧ destroyOp true { allow := true } { allow := true } [ownerElem] [] none (some user1)
        "i1" none []
        = ([], .error (.generic "Instance with identifier not found."))
    ∧ completeTaskOp true { allow := true } { allow := true } [ownerElem] [] "i1" "t1"
        none (some user1) [] none
        = ([], .error (.generic "Instance with identifier not found.")) :=
  claim_c9_missing_instance_amended true { allow := true } { allow := true }
    { allow := true } { allow := true } ["title"] [ownerElem] [] (some user1) ["title"]
    "i1" "t1" none [] [] (by decide) (by decide)

/-- C10: a `get` call that passes the access gate but whose `read` evaluation has
`allow = false` raises no error; it returns an object carrying exactly the
instance's id plus a `restrictedFields` list naming every requested top-level
field other than `"id"` (source line 83) — so `created`, `updated` and the other
always-allowed fields are reported as restricted in this case. -/
theorem claim_c10_get_read_denied
    (accessMatch readMatch : AclMatch) (readCeiling : List String)
    (ownerFields : List Element) (obj : Instance) (user : Option Identity)
    (topLevelFields : List String)
    (hacc : accessMatch.allow = true)
    (hrestr : restrictionsApplyToUser accessMatch.allowedRestrictions
        (userToAclTargets ownerFields user (some obj)).2 = true)
    (hread : readMatch.allow = false) :
    getOp true accessMatch readMatch readCeiling ownerFields (some obj) user topLevelFields
      = .ok { id := obj.id, values := [],
              restrictedFields := some (topLevelFields.filter (fun f => f ≠ "id")) } := by
  simp [getOp, hacc, hrestr, getInstanceResult, hread]

/-- Witness for C10: requesting `id`, `created` and `updated` under a read-deny
match returns only the id, with `created` and `updated` listed as restricted. -/
theorem claim_c10_get_read_denied_witness :
    getOp true { allow := true } { allow := false } ["title"] [ownerElem] (some inst1)
        (some user1) ["id", "created", "updated"]
      = .ok { id := inst1.id, values := [],
              restrictedFields :=
                some ((["id", "created", "updated"] : List String).filter (fun f => f ≠ "id")) } :=
  claim_c10_get_read_denied { allow := true } { allow := false } ["title"] [ownerElem]
    inst1 (some user1) ["id", "created", "updated"] rfl (by decide) rfl

/-- Composing two filters is filtering by the conjunction. -/
theorem filter_filter_and {α : Type} (p q : α → Bool) (l : List α) :
    (l.filter p).filter q = l.filter (fun a => p a && q a) := by
  induction l with
  | nil => rfl
  | cons a t ih => cases hp : p a <;> cases hq : q a <;> simp [hp, hq, ih]

/-- C5 counterexample: with `allowedRestrictions = ["owner"]` but a schema that
declares *no* owner fields, `list` skips the owner constraint entirely (the
guard at source line 226) and returns a row the authenticated caller does not
own — refuting "constrains the query to exactly the rows on which the caller is
an owner" as stated for every list call. -/
theorem claim_c5_list_owner_counterexample :
    listSelectedRows true { allow := true, allowedRestrictions := some ["owner"] } [] []
        (some user1) none [inst2]
      = .ok [inst2]
    ∧ isOwnerForUserId [] user1.id inst2 = false := by decide

/-- C5 (amended): for every list call whose access-level `allowedRestrictions`
set lacks `"all"`: an unauthenticated caller fails with an `AuthorizationError`;
an authenticated caller on a schema with at least one owner field gets exactly
the rows matching the listing filter AND owned by the caller (owner-field
predicates OR-combined inside `isOwnerForUserId`, AND-combined with the filter
predicates); but on a schema with no owner fields the owner constraint is
skipped and all filter-matching rows are returned. -/
theorem claim_c5_list_owner_filter_amended
    (accessMatch : AclMatch) (restrictions : List String)
    (filterFields ownerFields : List Element)
    (filterOpt : Option (List (String × FilterVal))) (rows : List Instance)
    (hacc : accessMatch.allow = true)
    (hres : accessMatch.allowedRestrictions = some restrictions)
    (hall : restrictions.contains "all" = false) :
    (listSelectedRows true accessMatch filterFields ownerFields none filterOpt rows
        = .error (.authorization "You must be a valid user "))
    ∧ (∀ u : Identity, ownerFields ≠ [] →
        listSelectedRows true accessMatch filterFields ownerFields (some u) filterOpt rows
          = .ok (rows.filter (fun row =>
              rowMatchesListingFilter filterFields filterOpt row
                && isOwnerForUserId ownerFields u.id row)))
    ∧ (∀ u : Identity, ownerFields = [] →
        listSelectedRows true accessMatch filterFields ownerFields (some u) filterOpt rows
          = .ok (rows.filter (rowMatchesListingFilter filterFields filterOpt))) := by
  have hallmem : "all" ∉ restrictions := by simpa using hall
  refine ⟨?_, ?_, ?_⟩
  · simp [listSelectedRows, hacc, hres, hallmem]
  · intro u hne
    have hne' : ownerFields.isEmpty = false := by
      cases ownerFields with
      | nil => exact absurd rfl hne
      | cons a l => rfl
    simp [listSelectedRows, hacc, hres, hallmem, hne', filter_filter_and, Bool.and_comm]
  · intro u hnil
    subst hnil
    simp [listSelectedRows, hacc, hres, hallmem]

/-- Witness for C5 (amended): restrictions `["owner"]`, one owner field, two rows
of which the caller owns only `inst1`: the selected rows are exactly the
filter-and-ownership matches (here `[inst1]` by evaluation). -/
theorem claim_c5_list_owner_filter_amended_witness :
    listSelectedRows true { allow := true, allowedRestrictions := some ["owner"] } []
        [ownerElem] (some user1) none [inst1, inst2]
      = .ok ([inst1, inst2].filter (fun row =>
          rowMatchesListingFilter [] none row
            && isOwnerForUserId [ownerElem] user1.id row)) :=
  (claim_c5_list_owner_filter_amended
      { allow := true, allowedRestrictions := some ["owner"] } ["owner"] [] [ownerElem]
      none [inst1, inst2] rfl rfl (by decide)).2.1 user1 (by decide)

/-- The witnessed selection indeed evaluates to exactly the owned row. -/
example :
    ([inst1, inst2].filter (fun row =>
        rowMatchesListingFilter [] none row
          && isOwnerForUserId [ownerElem] user1.id row)) = [inst1] := by decide

/-- Membership in a `_.pick` result: `(k, v)` is picked exactly when `k` is one
of the pick keys and `obj[k] = v`. -/
theorem mem_jsPick {st : List (String × JsVal)} {keys : List String}
    {k : String} {v : JsVal} :
    (k, v) ∈ jsPick st keys ↔ k ∈ keys ∧ lookupKey st k = some v := by
  constructor
  · intro h
    obtain ⟨a, ha, hmap⟩ := List.mem_filterMap.1 h
    obtain ⟨v', hv', heq⟩ := Option.map_eq_some'.1 hmap
    cases heq
    exact ⟨ha, hv'⟩
  · rintro ⟨hk, hv⟩
    exact List.mem_filterMap.2 ⟨k, hk, by rw [hv]; rfl⟩

/-- C8: for every `completeTask` call with caller-supplied state, the state is
first narrowed to the schema-declared state fields (no write match is consulted
— `completeTaskOp` takes none), and the task-completion payload forwards as
process variables exactly those narrowed entries whose value passes the
string/number/null test of source line 681. -/
theorem claim_c8_completeTask_state_vars
    (hasAcl : Bool) (accessMatch tasksMatch : AclMatch)
    (ownerFields elements : List Element) (inputId taskId : String)
    (obj : Instance) (user : Option Identity) (engineTasks : List Task)
    (st : List (String × JsVal))
    (hid : inputId ≠ "") (htid : taskId ≠ "")
    (htask : (engineTasks.filter (fun t => t.id = taskId)).isEmpty = false)
    (hgate : hasAcl = true →
      accessMatch.allow = true
      ∧ restrictionsApplyToUser accessMatch.allowedRestrictions
          (userToAclTargets ownerFields user (some obj)).2 = true
      ∧ tasksMatch.allow = true)
    (hfilt : (completeTaskFilteredTasks hasAcl tasksMatch taskId engineTasks).isEmpty
        = false) :
    ∃ saveEffects vars,
      completeTaskOp hasAcl accessMatch tasksMatch ownerFields
          (filterModelElementsForStates elements) inputId taskId (some obj) user
          engineTasks (some st)
        = (saveEffects ++ [Effect.taskComplete taskId vars], .ok true)
      ∧ ∀ k v, (k, v) ∈ vars.getD []
          ↔ (k ∈ (filterModelElementsForStates elements).map (fun e => e.field)
              ∧ lookupKey st k = some v ∧ isProcessVariableValue v = true) := by
  have hred : completeTaskOp hasAcl accessMatch tasksMatch ownerFields
      (filterModelElementsForStates elements) inputId taskId (some obj) user
      engineTasks (some st)
      = match filteredStateFor (filterModelElementsForStates elements) (some st) with
        | some fs =>
            if fs.isEmpty then ([Effect.taskComplete taskId none], .ok true)
            else
              ((if (applyStateChanges obj fs).2 then
                  [Effect.save (applyStateChanges obj fs).1] else [])
                 ++ [Effect.taskComplete taskId
                      (some (fs.filter (fun kv => isProcessVariableValue kv.2)))], .ok true)
        | none => ([Effect.taskComplete taskId none], .ok true) := by
    cases hasAcl with
    | false => simp [completeTaskOp, hid, htid, htask, hfilt]
    | true =>
        obtain ⟨h1, h2, h3⟩ := hgate rfl
        simp [completeTaskOp, hid, htid, htask, h1, h2, h3, hfilt]
  set stateKeys := (filterModelElementsForStates elements).map (fun e => e.field) with hkeys
  by_cases hkempty : stateKeys.isEmpty = true
  · have hknil : stateKeys = [] := by
      cases hsk : stateKeys with
      | nil => rfl
      | cons a l => rw [hsk] at hkempty; cases hkempty
    refine ⟨[], none, ?_, ?_⟩
    · rw [hred]
      simp [filteredStateFor, ← hkeys, hkempty]
    · intro k v
      simp [hknil]
  · have hkne : stateKeys.isEmpty = false := by
      cases h : stateKeys.isEmpty
      · rfl
      · exact absurd h hkempty
    have hfsdef : filteredStateFor (filterModelElementsForStates elements) (some st)
        = some (jsPick st stateKeys) := by
      simp [filteredStateFor, ← hkeys, hkne]
    by_cases hfse : (jsPick st stateKeys).isEmpty = true
    · have hfsnil : jsPick st stateKeys = [] := by
        cases hsk : jsPick st stateKeys with
        | nil => rfl
        | cons a l => rw [hsk] at hfse; cases hfse
      refine ⟨[], none, ?_, ?_⟩
      · rw [hred, hfsdef]
        simp [hfse]
      · intro k v
        simp only [Option.getD_none, List.not_mem_nil, false_iff]
        rintro ⟨hk, hv, _⟩
        have : (k, v) ∈ jsPick st stateKeys := mem_jsPick.2 ⟨hk, hv⟩
        rw [hfsnil] at this
        cases this
    · have hfse' : (jsPick st stateKeys).isEmpty = false := by
        cases h : (jsPick st stateKeys).isEmpty
        · rfl
        · exact absurd h hfse
      refine ⟨(if (applyStateChanges obj (jsPick st stateKeys)).2 then
          [Effect.save (applyStateChanges obj (jsPick st stateKeys)).1] else []),
        some ((jsPick st stateKeys).filter (fun kv => isProcessVariableValue kv.2)),
        ?_, ?_⟩
      · rw [hred, hfsdef]
        simp [hfse']
      · intro k v
        simp only [Option.getD_some, List.mem_filter]
        rw [mem_jsPick]
        constructor
        · rintro ⟨⟨hk, hv⟩, hscalar⟩
          exact ⟨hk, hv, hscalar⟩
        · rintro ⟨hk, hv, hscalar⟩
          exact ⟨⟨hk, hv⟩, hscalar⟩

/-- Witness for C8 at a concrete input: state fields `phase` (string, forwarded)
and `flagged` (boolean, filtered to the instance but not forwarded), plus a
non-state key `other` that is dropped by the state narrowing. -/
theorem claim_c8_completeTask_state_vars_witness :
    ∃ saveEffects vars,
      completeTaskOp true { allow := true } { allow := true } [ownerElem]
          (filterModelElementsForStates
            [{ field := "phase", isStateField := true },
             { field := "flagged", isStateField := true }])
          "i1" "t1" (some inst1) (some user1) [{ id := "t1", taskDefinitionKey := "k1" }]
          (some [("phase", JsVal.str "done"), ("flagged", JsVal.bool true),
                 ("other", JsVal.str "x")])
        = (saveEffects ++ [Effect.taskComplete "t1" vars], .ok true)
      ∧ ∀ k v, (k, v) ∈ vars.getD []
          ↔ (k ∈ (filterModelElementsForStates
                [{ field := "phase", isStateField := true },
                 { field := "flagged", isStateField := true }]).map (fun e => e.field)
              ∧ lookupKey [("phase", JsVal.str "done"), ("flagged", JsVal.bool true),
                    ("other", JsVal.str "x")] k = some v
              ∧ isProcessVariableValue v = true) :=
  claim_c8_completeTask_state_vars true { allow := true } { allow := true } [ownerElem]
    [{ field := "phase", isStateField := true },
     { field := "flagged", isStateField := true }]
    "i1" "t1" inst1 (some user1) [{ id := "t1", taskDefinitionKey := "k1" }]
    [("phase", JsVal.str "done"), ("flagged", JsVal.bool true), ("other", JsVal.str "x")]
    (by decide) (by decide) (by decide) (fun _ => ⟨rfl, by decide, rfl⟩) (by decide)

/-- A key absent from every pair of an association list looks up to `none`. -/
theorem lookupKey_eq_none {α : Type} {l : List (String × α)} {k : String}
    (h : ∀ p ∈ l, p.1 ≠ k) : lookupKey l k = none := by
  induction l with
  | nil => rfl
  | cons p t ih =>
      have hp : p.1 ≠ k := h p (by simp)
      simp only [lookupKey, if_neg hp]
      exact ih (fun q hq => h q (by simp [hq]))

/-- Membership in the read-allowed field set produced by `getAllowedReadFields`:
the policy's `allowedFields` intersected with the read ceiling (the full ceiling
when the policy names none), extended by the fixed always-allowed fields. -/
theorem contains_getAllowedReadFields (readCeiling : List String) (m : AclMatch)
    (f : String) :
    (getAllowedReadFields readCeiling (some m) true).contains f = true
      ↔ ((f ∈ readCeiling
            ∧ (m.allowedFields = none ∨ ∃ af, m.allowedFields = some af ∧ f ∈ af))
          ∨ f ∈ AdditionalAllowedGetFields) := by
  cases haf : m.allowedFields with
  | none => simp [getAllowedReadFields, haf]
  | some af => simp [getAllowedReadFields, haf, and_comm]

/-- C7 counterexample: a `get` that passes the access gate but is denied at the
`read` level, requesting only `id`, returns `restrictedFields = some []` — the
empty list is *not* omitted (source line 83 attaches it unconditionally in the
read-deny branch), refuting "the list being omitted entirely when empty" as
stated for every access-passing `get`. -/
theorem claim_c7_get_redaction_counterexample :
    getOp true { allow := true } { allow := false } ["title"] [ownerElem] (some inst1)
        (some user1) ["id"]
      = .ok { id := "i1", values := [], restrictedFields := some [] }
    ∧ (getOp true { allow := true } { allow := false } ["title"] [ownerElem] (some inst1)
        (some user1) ["id"]
        ≠ .ok { id := "i1", values := [], restrictedFields := none }) := by decide

/-- C7 (amended): for every `get` call that passes the access gate *and whose
`read` evaluation allows*, the returned object carries the instance's id, and
otherwise contains values only for requested fields that are in the read-allowed
set (the policy's `allowedFields` intersected with the read ceiling — the full
ceiling when the policy names none — always extended by the fixed set `id`,
`created`, `updated`, `tasks`, `restrictedFields`); it carries a
`restrictedFields` list naming exactly the requested-but-disallowed fields,
omitted entirely when that list is empty; and a read-disallowed field never
appears as a key of the returned values.  (In the read-deny branch the result is
the id plus all requested non-`id` fields as `restrictedFields`, even when
empty — see the C10 branch and the counterexample.) -/
theorem claim_c7_get_redaction_amended
    (accessMatch readMatch : AclMatch) (readCeiling : List String)
    (ownerFields : List Element) (obj : Instance) (user : Option Identity)
    (topLevelFields : List String)
    (hacc : accessMatch.allow = true)
    (hrestr : restrictionsApplyToUser accessMatch.allowedRestrictions
        (userToAclTargets ownerFields user (some obj)).2 = true)
    (hread : readMatch.allow = true) :
    ∃ r, getOp true accessMatch readMatch readCeiling ownerFields (some obj) user
          topLevelFields = .ok r
      ∧ r.id = obj.id
      ∧ (∀ k v, (k, v) ∈ r.values →
          k ∈ topLevelFields
          ∧ (getAllowedReadFields readCeiling (some readMatch) true).contains k = true
          ∧ lookupKey obj.fields k = some v)
      ∧ r.restrictedFields
          = (if (topLevelFields.filter (fun f =>
                !((getAllowedReadFields readCeiling (some readMatch) true).contains f))).isEmpty
             then none
             else some (topLevelFields.filter (fun f =>
                !((getAllowedReadFields readCeiling (some readMatch) true).contains f))))
      ∧ (∀ k, (getAllowedReadFields readCeiling (some readMatch) true).contains k = false →
          lookupKey r.values k = none)
      ∧ (∀ f, (getAllowedReadFields readCeiling (some readMatch) true).contains f = true
          ↔ ((f ∈ readCeiling
                ∧ (readMatch.allowedFields = none
                    ∨ ∃ af, readMatch.allowedFields = some af ∧ f ∈ af))
              ∨ f ∈ AdditionalAllowedGetFields)) := by
  have hrun : getOp true accessMatch readMatch readCeiling ownerFields (some obj) user
      topLevelFields
      = .ok (getInstanceAllowed obj (getAllowedReadFields readCeiling (some readMatch) true)
          topLevelFields) := by
    simp [getOp, hacc, hrestr, getInstanceResult, hread]
  refine ⟨_, hrun, rfl, ?_, ?_, ?_, fun f => contains_getAllowedReadFields readCeiling readMatch f⟩
  · intro k v hkv
    obtain ⟨a, ha, hmap⟩ := List.mem_filterMap.1 hkv
    obtain ⟨v', hv', heq⟩ := Option.map_eq_some'.1 hmap
    cases heq
    obtain ⟨hreq, hallow⟩ := List.mem_filter.1 ha
    exact ⟨hreq, hallow, hv'⟩
  · rfl
  · intro k hk
    refine lookupKey_eq_none ?_
    rintro ⟨k', v⟩ hkv hfst
    obtain ⟨a, ha, hmap⟩ := List.mem_filterMap.1 hkv
    obtain ⟨v', hv', heq⟩ := Option.map_eq_some'.1 hmap
    cases heq
    obtain ⟨hreq, hallow⟩ := List.mem_filter.1 ha
    have hk'k : k' = k := hfst
    rw [hk'k] at hallow
    rw [hallow] at hk
    cases hk

/-- Witness for C7 (amended) at a concrete input: the read policy allows only
`title`; the caller requests `title` and `secret`. -/
theorem claim_c7_get_redaction_amended_witness :
    ∃ r, getOp true { allow := true }
          { allow := true, allowedFields := some ["title"] } ["title", "secret"]
          [ownerElem] (some inst1) (some user1) ["title", "secret"] = .ok r
      ∧ r.id = inst1.id
      ∧ (∀ k v, (k, v) ∈ r.values →
          k ∈ ["title", "secret"]
          ∧ (getAllowedReadFields ["title", "secret"]
              (some { allow := true, allowedFields := some ["title"] }) true).contains k = true
          ∧ lookupKey inst1.fields k = some v)
      ∧ r.restrictedFields
          = (if ((["title", "secret"] : List String).filter (fun f =>
                !((getAllowedReadFields ["title", "secret"]
                    (some { allow := true, allowedFields := some ["title"] }) true).contains f))).isEmpty
             then none
             else some ((["title", "secret"] : List String).filter (fun f =>
                !((getAllowedReadFields ["title", "secret"]
                    (some { allow := true, allowedFields := some ["title"] }) true).contains f))))
      ∧ (∀ k, (getAllowedReadFields ["title", "secret"]
            (some { allow := true, allowedFields := some ["title"] }) true).contains k = false →
          lookupKey r.values k = none)
      ∧ (∀ f, (getAllowedReadFields ["title", "secret"]
            (some { allow := true, allowedFields := some ["title"] }) true).contains f = true
          ↔ ((f ∈ (["title", "secret"] : List String)
                ∧ ((some ["title"] : Option (List String)) = none
                    ∨ ∃ af, (some ["title"] : Option (List String)) = some af ∧ f ∈ af))
              ∨ f ∈ AdditionalAllowedGetFields)) :=
  claim_c7_get_redaction_amended { allow := true }
    { allow := true, allowedFields := some ["title"] } ["title", "secret"] [ownerElem]
    inst1 (some user1) ["title", "secret"] rfl (by decide) rfl

/-- The witnessed `get` indeed returns `title` but never `secret`, and names
`secret` as restricted. -/
example :
    getOp true { allow := true } { allow := true, allowedFields := some ["title"] }
        ["title", "secret"] [ownerElem] (some inst1) (some user1) ["title", "secret"]
      = .ok { id := "i1", values := [("title", JsVal.str "t1")],
              restrictedFields := some ["secret"] } := by decide

end PCoko
